import Mathlib

/-!
Verification development for the acquisition front-end of go-readability
(`readability.go`).  The pipeline `FromURL` is shallowly embedded as a pure
Lean function: URL validation (Go `net/url.ParseRequestURI`), request
construction, transport execution (a function parameter), gzip encoding
normalization (Go `compress/gzip` header handling plus a deflate parameter),
the HTML media-type gate, and dispatch to the external extraction engine
(another function parameter).  Resource management (the deferred `Close`
calls) is embedded as an explicit event trace.
-/

namespace GoReadability

/-! ## Bytes and basic helpers -/

/-- A byte stream is a list of byte values (each `< 256` for real data). -/
abbrev Bytes := List Nat

/-- Go `strings.Contains`, on character lists: `sub` occurs contiguously. -/
def hasSubList (sub : List Char) : List Char → Bool
  | [] => sub.isEmpty
  | c :: rest => sub.isPrefixOf (c :: rest) || hasSubList sub rest

/-- Go `strings.Contains s substr`. -/
def stringsContains (s substr : String) : Bool :=
  hasSubList substr.toList s.toList

/-- Does the character list begin with `'/'` (Go `strings.HasPrefix rest "/"`)? -/
def startsWithSlash : List Char → Bool
  | '/' :: _ => true
  | _ => false

/-- Does the character list begin with `"//"`? -/
def startsWithDblSlash : List Char → Bool
  | '/' :: '/' :: _ => true
  | _ => false

/-- Does the character list begin with `"///"`? -/
def startsWithTriSlash : List Char → Bool
  | '/' :: '/' :: '/' :: _ => true
  | _ => false

/-- First index of character `c`, Go `strings.Index` for a one-byte pattern. -/
def indexOfChar (c : Char) : List Char → Option Nat
  | [] => none
  | d :: rest =>
    if d == c then some 0
    else match indexOfChar c rest with
      | none => none
      | some i => some (i + 1)

/-- Last index of character `c`, Go `strings.LastIndex` for a one-byte pattern. -/
def lastIndexOfChar (c : Char) : List Char → Option Nat
  | [] => none
  | d :: rest =>
    match lastIndexOfChar c rest with
    | some i => some (i + 1)
    | none => if d == c then some 0 else none

/-- Go `strings.Cut(s, sep)` for a one-character separator:
`(before, after, found)`. -/
def cutAtChar (c : Char) : List Char → List Char × List Char × Bool
  | [] => ([], [], false)
  | d :: rest =>
    if d == c then ([], rest, true)
    else
      let r := cutAtChar c rest
      (d :: r.1, r.2.1, r.2.2)

/-- ASCII lower-casing of a character (schemes only contain ASCII). -/
def lowerChar (c : Char) : Char :=
  if 'A' ≤ c && c ≤ 'Z' then Char.ofNat (c.toNat + 32) else c

/-- Go `strings.ToLower` restricted to the ASCII range. -/
def lowerString (s : String) : String :=
  String.mk (s.toList.map lowerChar)

end GoReadability

namespace NUrl

open GoReadability

/-- Parse-error messages of the `net/url` model. -/
abbrev PErr := String

/-- The result of Go `net/url` parsing: the fields of `url.URL` that the
pipeline can observe.  `opaq` is the `Opaque` field (rootless path of an
absolute URI).  Fragment contents are not tracked. -/
structure URL where
  scheme : String := ""
  opaq : String := ""
  user : Option String := none
  host : String := ""
  path : String := ""
  rawQuery : String := ""
  forceQuery : Bool := false
  omitHost : Bool := false
deriving Repr, DecidableEq

/-- Go `stringContainsCTLByte`: any byte below `0x20` or equal to `0x7f`. -/
def stringContainsCTLByte (s : String) : Bool :=
  s.toList.any (fun c => c.toNat < 0x20 || c.toNat == 0x7f)

/-- Scheme alphabet: ASCII letters. -/
def isSchemeAlpha (c : Char) : Bool :=
  ('a' ≤ c && c ≤ 'z') || ('A' ≤ c && c ≤ 'Z')

/-- Further scheme characters allowed after the first: digits, `+`, `-`, `.`. -/
def isSchemeDigitEtc (c : Char) : Bool :=
  ('0' ≤ c && c ≤ '9') || c == '+' || c == '-' || c == '.'

/-- The loop of Go `getScheme`: `acc` holds the scheme characters seen so
far, `raw` is the whole input (returned untouched when no scheme exists). -/
def getSchemeAux (raw : String) (acc : List Char) : List Char → Except PErr (String × String)
  | [] => .ok ("", raw)
  | c :: cs =>
    if isSchemeAlpha c then getSchemeAux raw (acc ++ [c]) cs
    else if isSchemeDigitEtc c then
      if acc.isEmpty then .ok ("", raw) else getSchemeAux raw (acc ++ [c]) cs
    else if c == ':' then
      if acc.isEmpty then .error "missing protocol scheme"
      else .ok (String.mk acc, String.mk cs)
    else .ok ("", raw)

/-- Go `getScheme`: split a possible leading `scheme:` off the raw URL. -/
def getScheme (raw : String) : Except PErr (String × String) :=
  getSchemeAux raw [] raw.toList

/-- The query split of Go `parse`: returns `(rest, rawQuery, forceQuery)`.
A single trailing `?` with no other `?` sets `ForceQuery`; otherwise the
string is cut at the first `?`. -/
def stripQuery (rest : List Char) : List Char × List Char × Bool :=
  if rest.getLast? == some '?' && !(rest.dropLast.contains '?') then
    (rest.dropLast, [], true)
  else
    let r := cutAtChar '?' rest
    (r.1, r.2.1, false)

/-- Hex digit test (Go `ishex`). -/
def ishex (c : Char) : Bool :=
  ('0' ≤ c && c ≤ '9') || ('a' ≤ c && c ≤ 'f') || ('A' ≤ c && c ≤ 'F')

/-- Hex digit value (Go `unhex`). -/
def unhex (c : Char) : Nat :=
  if '0' ≤ c && c ≤ '9' then c.toNat - '0'.toNat
  else if 'a' ≤ c && c ≤ 'f' then c.toNat - 'a'.toNat + 10
  else if 'A' ≤ c && c ≤ 'F' then c.toNat - 'A'.toNat + 10
  else 0

/-- The percent-escape validity part of Go `unescape` (modes whose only
error source is a malformed `%XX`). -/
def validEscapes : List Char → Bool
  | '%' :: a :: b :: rest => ishex a && ishex b && validEscapes rest
  | '%' :: _ => false
  | _ :: rest => validEscapes rest
  | [] => true

/-- The decoding part of Go `unescape`: replace each `%XX` by its byte. -/
def unescapeList : List Char → List Char
  | '%' :: a :: b :: rest => Char.ofNat (16 * unhex a + unhex b) :: unescapeList rest
  | c :: rest => c :: unescapeList rest
  | [] => []

/-- Go `validUserinfo`: the characters allowed unescaped in userinfo. -/
def validUserinfoChar (c : Char) : Bool :=
  ('A' ≤ c && c ≤ 'Z') || ('a' ≤ c && c ≤ 'z') || ('0' ≤ c && c ≤ '9') ||
  c == '-' || c == '.' || c == '_' || c == ':' || c == '~' || c == '!' ||
  c == '$' || c == '&' || c == '\'' || c == '(' || c == ')' || c == '*' ||
  c == '+' || c == ',' || c == ';' || c == '=' || c == '%' || c == '@'

/-- Go `shouldEscape c encodeHost` for ASCII `c`: characters that may not
appear unescaped in a host. -/
def shouldEscapeHost (c : Char) : Bool :=
  !(('A' ≤ c && c ≤ 'Z') || ('a' ≤ c && c ≤ 'z') || ('0' ≤ c && c ≤ '9') ||
    c == '!' || c == '$' || c == '&' || c == '\'' || c == '(' || c == ')' ||
    c == '*' || c == '+' || c == ',' || c == ';' || c == '=' || c == ':' ||
    c == '[' || c == ']' || c == '<' || c == '>' || c == '\"' ||
    c == '-' || c == '_' || c == '.' || c == '~')

/-- The host branch of Go `unescape` (`encodeHost` mode): escapes must be
`%25` or `%8X`–`%FF`, and plain ASCII characters must be legal host
characters; bytes at or above `0x80` pass through. -/
def hostUnescapeOK : List Char → Bool
  | '%' :: a :: b :: rest =>
    ishex a && ishex b && (unhex a ≥ 8 || (a == '2' && b == '5')) && hostUnescapeOK rest
  | '%' :: _ => false
  | c :: rest => !(c.toNat < 0x80 && shouldEscapeHost c) && hostUnescapeOK rest
  | [] => true

/-- Go `validOptionalPort`: empty, or `:` followed by digits only. -/
def validOptionalPort : List Char → Bool
  | [] => true
  | ':' :: digits => digits.all (fun c => '0' ≤ c && c ≤ '9')
  | _ => false

/-- Go `parseHost`: bracketed IPv6 hosts check the port after the closing
bracket, other hosts check the part after the last `:`; the whole host is
then validated and unescaped in `encodeHost` mode.  (IPv6 zone identifiers
are decoded uniformly here rather than by the `%25` split.) -/
def parseHost (host : List Char) : Except PErr String :=
  let finish : Except PErr String :=
    if hostUnescapeOK host then .ok (String.mk (unescapeList host))
    else .error "net/url: invalid host"
  match host with
  | '[' :: _ =>
    match lastIndexOfChar ']' host with
    | none => .error "missing ']' in host"
    | some i =>
      if validOptionalPort (host.drop (i + 1)) then finish
      else .error "invalid port after host"
  | _ =>
    match lastIndexOfChar ':' host with
    | some i =>
      if validOptionalPort (host.drop i) then finish
      else .error "invalid port after host"
    | none => finish

/-- Go `parseAuthority`: split at the last `@`; the host is parsed either
way, and userinfo (when present) must pass `validUserinfo` and unescape. -/
def parseAuthority (authority : List Char) : Except PErr (Option String × String) :=
  match lastIndexOfChar '@' authority with
  | none =>
    match parseHost authority with
    | .error e => .error e
    | .ok h => .ok (none, h)
  | some i =>
    let userinfo := authority.take i
    match parseHost (authority.drop (i + 1)) with
    | .error e => .error e
    | .ok h =>
      if !userinfo.all validUserinfoChar then .error "net/url: invalid userinfo"
      else if validEscapes userinfo then .ok (some (String.mk (unescapeList userinfo)), h)
      else .error "invalid URL escape"

/-- Go `URL.setPath`: validate percent escapes and store the decoded path. -/
def setPathChecked (p : List Char) : Except PErr String :=
  if validEscapes p then .ok (String.mk (unescapeList p))
  else .error "invalid URL escape"

/-- The tail of Go `parse` when no authority section is consumed: `OmitHost`
is set for `scheme:/path` forms, then the path is set. -/
def finishNoAuthority (scheme : String) (rest1 rawQuery : List Char)
    (forceQuery : Bool) : Except PErr URL :=
  match setPathChecked rest1 with
  | .error e => .error e
  | .ok p =>
    .ok { scheme := scheme, omitHost := decide (scheme ≠ "") && startsWithSlash rest1,
          path := p, rawQuery := String.mk rawQuery, forceQuery := forceQuery }

/-- The authority branch of Go `parse`: `afterSlashes` is `rest` with the
leading `"//"` removed; it is cut at the first `/` into authority and path. -/
def parseWithAuthority (scheme : String) (afterSlashes rawQuery : List Char)
    (forceQuery : Bool) : Except PErr URL :=
  let split : List Char × List Char :=
    match indexOfChar '/' afterSlashes with
    | some i => (afterSlashes.take i, afterSlashes.drop i)
    | none => (afterSlashes, [])
  match parseAuthority split.1 with
  | .error e => .error e
  | .ok uh =>
    match setPathChecked split.2 with
    | .error e => .error e
    | .ok p =>
      .ok { scheme := scheme, user := uh.1, host := uh.2,
            path := p, rawQuery := String.mk rawQuery, forceQuery := forceQuery }

/-- Go `net/url.parse(rawURL, viaRequest)`. -/
def parse (rawURL : String) (viaRequest : Bool) : Except PErr URL :=
  if stringContainsCTLByte rawURL then
    .error "net/url: invalid control character in URL"
  else if rawURL == "" && viaRequest then .error "empty url"
  else if rawURL == "*" then .ok { path := "*" }
  else
    match getScheme rawURL with
    | .error e => .error e
    | .ok sr =>
      let scheme := lowerString sr.1
      let q := stripQuery sr.2.toList
      let rest1 := q.1
      let rawQuery := q.2.1
      let forceQuery := q.2.2
      if startsWithSlash rest1 then
        if (decide (scheme ≠ "") || (!viaRequest && !startsWithTriSlash rest1)) &&
            startsWithDblSlash rest1 then
          parseWithAuthority scheme (rest1.drop 2) rawQuery forceQuery
        else finishNoAuthority scheme rest1 rawQuery forceQuery
      else
        if scheme ≠ "" then
          .ok { scheme := scheme, opaq := String.mk rest1,
                rawQuery := String.mk rawQuery, forceQuery := forceQuery }
        else if viaRequest then .error "invalid URI for request"
        else if (rest1.takeWhile (· ≠ '/')).contains ':' then
          .error "first path segment in URL cannot contain colon"
        else finishNoAuthority scheme rest1 rawQuery forceQuery

/-- Go `net/url.ParseRequestURI`. -/
def parseRequestURI (rawURL : String) : Except PErr URL :=
  parse rawURL true

/-- Go `net/url.Parse`: cut a fragment at the first `#`, parse the rest with
`viaRequest = false`, and validate the fragment's escapes (its decoded value
is not tracked). -/
def urlParse (rawURL : String) : Except PErr URL :=
  let c := cutAtChar '#' rawURL.toList
  match parse (String.mk c.1) false with
  | .error e => .error e
  | .ok u =>
    if c.2.2 then
      if validEscapes c.2.1 then .ok u else .error "invalid URL escape"
    else .ok u

end NUrl

namespace Gzip

open GoReadability

/-! ## Model of Go `compress/gzip` header handling

`gzip.NewReader` consumes and validates the member header at wrap time
(`readHeader`); the deflate stream and the crc32/size trailer are consumed
lazily by `Read`.  The deflate decompressor itself is external to the unit
and appears as a function parameter `inflate`, which returns the
decompressed bytes together with the bytes left after the deflate stream. -/

/-- One round of the crc32 (IEEE, reflected) shift register. -/
def crcRound (c : Nat) : Nat :=
  if c % 2 == 1 then (c / 2) ^^^ 0xEDB88320 else c / 2

/-- crc32 table entry for byte `n` (eight shift-register rounds). -/
def crcTable (n : Nat) : Nat :=
  crcRound (crcRound (crcRound (crcRound (crcRound (crcRound (crcRound (crcRound n)))))))

/-- Go `crc32.Update(crc, crc32.IEEETable, p)`. -/
def crc32Update (crc : Nat) (p : Bytes) : Nat :=
  (p.foldl (fun c b => (c / 256) ^^^ crcTable ((c ^^^ b) % 256)) (crc ^^^ 0xFFFFFFFF))
    ^^^ 0xFFFFFFFF

/-- Go `crc32.ChecksumIEEE`. -/
def crcIEEE (p : Bytes) : Nat := crc32Update 0 p

/-- Little-endian 16-bit read of two bytes. -/
def leUint16 (a b : Nat) : Nat := a + 256 * b

/-- Go `binary.LittleEndian.Uint32` of a four-byte list. -/
def leUint32 : Bytes → Nat
  | [a, b, c, d] => a + 256 * (b + 256 * (c + 256 * d))
  | _ => 0

/-- Four-byte little-endian encoding of `n`. -/
def le32 (n : Nat) : Bytes :=
  [n % 256, n / 256 % 256, n / 65536 % 256, n / 16777216 % 256]

/-- Go `Reader.readString` (used for the FNAME/FCOMMENT fields): collect
bytes up to and including a NUL terminator, failing after 512 bytes (the
header scratch buffer size) or at end of input.  Returns the consumed bytes
(terminator included, for the header digest) and the remainder. -/
def readStringAux : Nat → Bytes → Except String (Bytes × Bytes)
  | 0, _ => .error "gzip: invalid header"
  | _ + 1, [] => .error "unexpected EOF"
  | n + 1, b :: rest =>
    if b == 0 then .ok ([0], rest)
    else
      match readStringAux n rest with
      | .error e => .error e
      | .ok sr => .ok (b :: sr.1, sr.2)

/-- `readString` with the 512-byte buffer bound. -/
def readStringBytes (b : Bytes) : Except String (Bytes × Bytes) :=
  readStringAux 512 b

/-- FHCRC step of `readHeader`: when flag bit 2 is set, the stored 16-bit
digest must match the crc32 of the header bytes so far. -/
def readHeaderCrc (flg digest : Nat) (r : Bytes) : Except String Bytes :=
  if (flg &&& 2) != 0 then
    match r with
    | c0 :: c1 :: r1 =>
      if leUint16 c0 c1 == digest % 65536 then .ok r1
      else .error "gzip: invalid header"
    | _ => .error "unexpected EOF"
  else .ok r

/-- FCOMMENT step of `readHeader`. -/
def readHeaderComment (flg digest : Nat) (r : Bytes) : Except String Bytes :=
  if (flg &&& 16) != 0 then
    match readStringBytes r with
    | .error e => .error e
    | .ok sr => readHeaderCrc flg (crc32Update digest sr.1) sr.2
  else readHeaderCrc flg digest r

/-- FNAME step of `readHeader`. -/
def readHeaderName (flg digest : Nat) (r : Bytes) : Except String Bytes :=
  if (flg &&& 8) != 0 then
    match readStringBytes r with
    | .error e => .error e
    | .ok sr => readHeaderComment flg (crc32Update digest sr.1) sr.2
  else readHeaderComment flg digest r

/-- FEXTRA step of `readHeader`: a 16-bit little-endian length followed by
that many bytes. -/
def readHeaderExtra (flg digest : Nat) (r : Bytes) : Except String Bytes :=
  if (flg &&& 4) != 0 then
    match r with
    | l0 :: l1 :: r1 =>
      let n := leUint16 l0 l1
      if r1.length < n then .error "unexpected EOF"
      else readHeaderName flg (crc32Update digest (l0 :: l1 :: r1.take n)) (r1.drop n)
    | _ => .error "unexpected EOF"
  else readHeaderName flg digest r

/-- Go `gzip.Reader.readHeader`, the validation performed by
`gzip.NewReader` at wrap time: ten fixed bytes (magic `1f 8b`, method 8),
then the flag-dependent optional fields.  Returns the bytes following the
member header. -/
def readHeader (b : Bytes) : Except String Bytes :=
  match b with
  | b0 :: b1 :: b2 :: b3 :: b4 :: b5 :: b6 :: b7 :: b8 :: b9 :: r =>
    if b0 == 0x1f && b1 == 0x8b && b2 == 8 then
      readHeaderExtra b3 (crcIEEE [b0, b1, b2, b3, b4, b5, b6, b7, b8, b9]) r
    else .error "gzip: invalid header"
  | _ => .error "EOF"

/-- The member trailer check of `gzip.Reader.Read`: four crc32 bytes and
four length bytes, both little-endian, compared against the decompressed
output.  Returns the bytes following the trailer. -/
def checkTrailer (out r : Bytes) : Except String Bytes :=
  if r.length < 8 then .error "unexpected EOF"
  else
    if leUint32 (r.take 4) == crcIEEE out && leUint32 ((r.drop 4).take 4) == out.length % 4294967296 then
      .ok (r.drop 8)
    else .error "gzip: invalid checksum"

/-- The read phase of a gzip stream after `NewReader` has consumed the first
member header: inflate, check the trailer, and (multistream mode, the
default) continue with further members while input remains.  `fuel` bounds
the number of extra members; it is instantiated with the body length, which
exceeds the possible member count. -/
def gzipAfterHeader (inflate : Bytes → Except String (Bytes × Bytes)) :
    Nat → Bytes → Except String Bytes
  | fuel, b =>
    match inflate b with
    | .error e => .error e
    | .ok outr =>
      match checkTrailer outr.1 outr.2 with
      | .error e => .error e
      | .ok r3 =>
        match r3 with
        | [] => .ok outr.1
        | _ =>
          match fuel with
          | 0 => .error "gzip: member bound exceeded"
          | f + 1 =>
            match readHeader r3 with
            | .error e => .error e
            | .ok r4 =>
              match gzipAfterHeader inflate f r4 with
              | .error e => .error e
              | .ok more => .ok (outr.1 ++ more)

/-- A deflate decompressor for stored (uncompressed) blocks: block header
byte (BFINAL bit 0, BTYPE bits 1–2), then `LEN`/`NLEN` and `LEN` literal
bytes.  Compressed block types are reported as corrupt input, standing in
for the parts of `compress/flate` this development does not need. -/
def inflateStored : Nat → Bytes → Except String (Bytes × Bytes)
  | 0, _ => .error "flate: block bound exceeded"
  | fuel + 1, b =>
    match b with
    | [] => .error "unexpected EOF"
    | h :: r =>
      if h / 2 % 4 == 0 then
        match r with
        | l0 :: l1 :: n0 :: n1 :: r2 =>
          if n0 == 255 - l0 && n1 == 255 - l1 then
            let n := leUint16 l0 l1
            if r2.length < n then .error "unexpected EOF"
            else
              if h % 2 == 1 then .ok (r2.take n, r2.drop n)
              else
                match inflateStored fuel (r2.drop n) with
                | .error e => .error e
                | .ok mr => .ok (r2.take n ++ mr.1, mr.2)
          else .error "flate: corrupt input"
        | _ => .error "unexpected EOF"
      else .error "flate: corrupt input"

/-- The stored-block decompressor with enough fuel for its input. -/
def stdInflate (b : Bytes) : Except String (Bytes × Bytes) :=
  inflateStored (b.length + 1) b

/-- A deflate stored block holding all of `data` (valid for
`data.length ≤ 65535`): final-block header byte, `LEN`, `NLEN`, data. -/
def storedBlock (data : Bytes) : Bytes :=
  1 :: (data.length % 256) :: (data.length / 256 % 256) ::
    (255 - data.length % 256) :: (255 - data.length / 256 % 256) :: data

/-- A gzip member whose deflate stream is one stored block: the ten-byte
header (no flags, unknown OS), the block, then crc32 and length trailer.
This is a valid gzip compression of `data` whenever `data.length ≤ 65535`. -/
def gzipCompress (data : Bytes) : Bytes :=
  0x1f :: 0x8b :: 8 :: 0 :: 0 :: 0 :: 0 :: 0 :: 0 :: 255 ::
    (storedBlock data ++ (le32 (crcIEEE data) ++ le32 data.length))

end Gzip

namespace GoReadability

open NUrl Gzip

/-! ## Model of `readability.go` `FromURL` -/

/-- The opaque success value produced by the extraction engine.  `FromURL`
never inspects it; `Article{}` is the zero value returned on errors. -/
structure Article where
  content : String := ""
deriving Repr

/-- An outbound HTTP request as `FromURL` builds it: method, raw URL, the
URL parsed by `http.NewRequest`, and the `Accept-Encoding` header value. -/
structure Request where
  method : String
  rawURL : String
  url : URL
  acceptEncoding : String
deriving Repr, DecidableEq

/-- The observable parts of an `http.Response`: the `Content-Encoding` and
`Content-Type` header values (empty string when absent, as with Go
`Header.Get`), the body bytes, the status code, and the final URL after any
redirects the transport followed.  `FromURL` reads neither of the last two. -/
structure Response where
  contentEncoding : String := ""
  contentType : String := ""
  body : Bytes := []
  statusCode : Nat := 200
  finalURL : String := ""
deriving Repr

/-- Resource and network events of one `FromURL` invocation, in order:
the single `client.Do` call, then the deferred closes, which run in
last-in-first-out order (`reader.Close` before `resp.Body.Close`). -/
inductive Event
  | request (r : Request)
  | closeGzip
  | closeBody
deriving Repr, BEq, DecidableEq

/-- The classified failures of `FromURL`, one constructor per `return`
statement carrying an error (`fmt.Errorf` site), plus the error surfaced
unchanged from `parser.Parse`. -/
inductive FErr
  | invalidURL (msg : String)
  | requestBuild (msg : String)
  | fetchError (msg : String)
  | decodeError (msg : String)
  | unsupportedContentType
  | parseError (msg : String)
deriving Repr, DecidableEq

/-- The transport (`http.Client.Do` with the client's timeout): given the
timeout and the request, either a response or a transport-level failure. -/
abbrev Transport := Nat → Request → Except String Response

/-- The extraction engine's `Parse`: consumes the normalized stream (which
either yields bytes or fails while being read) and the resolved URL. -/
abbrev ParseFn := Except String Bytes → URL → Except String Article

/-- Complete observable outcome of one `FromURL` invocation: the returned
result, the network/close event trace, and the argument pair handed to
`parser.Parse` (`none` when extraction was never reached). -/
structure RunResult where
  result : Except FErr Article
  events : List Event
  delivered : Option (Except String Bytes × URL)

/-- Go `http.NewRequest("GET", rawURL, nil)`: parses the URL with
`url.Parse`; the method is fixed and valid, so URL parsing is the only
failure source. -/
def newRequest (method rawURL : String) : Except PErr Request :=
  match urlParse rawURL with
  | .error e => .error e
  | .ok u => .ok { method := method, rawURL := rawURL, url := u, acceptEncoding := "" }

/-- `FromURL(pageURL, timeout)` from `readability.go`, line by line:
validate the URL with `ParseRequestURI`; build the GET request and set
`Accept-Encoding: gzip`; execute it; on `Content-Encoding: gzip` wrap the
body with `gzip.NewReader` (header validation at wrap time, deflate and
trailer at read time); gate on `Content-Type` containing `"text/html"`;
hand the stream and the parsed input URL to `parser.Parse`.  The deferred
closes appear at the tail of the event trace in their runtime order. -/
def fromURL (inflate : Bytes → Except String (Bytes × Bytes)) (parserParse : ParseFn)
    (transport : Transport) (pageURL : String) (timeout : Nat) : RunResult :=
  match parseRequestURI pageURL with
  | .error e =>
    { result := .error (.invalidURL ("failed to parse URL: " ++ e)),
      events := [], delivered := none }
  | .ok parsedURL =>
    match newRequest "GET" pageURL with
    | .error e =>
      { result := .error (.requestBuild ("failed to create request: " ++ e)),
        events := [], delivered := none }
    | .ok req0 =>
      let req : Request := { req0 with acceptEncoding := "gzip" }
      match transport timeout req with
      | .error e =>
        { result := .error (.fetchError ("failed to fetch the page: " ++ e)),
          events := [.request req], delivered := none }
      | .ok resp =>
        if resp.contentEncoding == "gzip" then
          match readHeader resp.body with
          | .error e =>
            { result := .error (.decodeError ("failed to create gzip reader: " ++ e)),
              events := [.request req, .closeBody], delivered := none }
          | .ok afterHdr =>
            if stringsContains resp.contentType "text/html" then
              let stream := gzipAfterHeader inflate resp.body.length afterHdr
              { result :=
                  match parserParse stream parsedURL with
                  | .error e => .error (.parseError e)
                  | .ok a => .ok a,
                events := [.request req, .closeGzip, .closeBody],
                delivered := some (stream, parsedURL) }
            else
              { result := .error .unsupportedContentType,
                events := [.request req, .closeGzip, .closeBody], delivered := none }
        else
          if stringsContains resp.contentType "text/html" then
            { result :=
                match parserParse (.ok resp.body) parsedURL with
                | .error e => .error (.parseError e)
                | .ok a => .ok a,
              events := [.request req, .closeBody],
              delivered := some (.ok resp.body, parsedURL) }
          else
            { result := .error .unsupportedContentType,
              events := [.request req, .closeBody], delivered := none }

/-! ### Concrete instances used as witnesses -/

/-- A transport that always answers with the given response. -/
def constTransport (r : Response) : Transport := fun _ _ => .ok r

/-- A transport whose every call fails at the connection level. -/
def failTransport : Transport := fun _ _ => .error "boom"

/-- An extraction engine that propagates stream read failures and otherwise
returns an empty article, as a stand-in for the external `Parser`. -/
def propagatingParse : ParseFn := fun s _ =>
  match s with
  | .error e => .error e
  | .ok _ => .ok {}

/-! ### Sample values for concrete runs -/

/-- The URL value `ParseRequestURI` produces for `"http://example.com/"`. -/
def egURL : NUrl.URL := { scheme := "http", host := "example.com", path := "/" }

/-- The request `http.NewRequest` builds for `"http://example.com/"` before
the `Accept-Encoding` header is set. -/
def egReq0 : Request :=
  { method := "GET", rawURL := "http://example.com/", url := egURL, acceptEncoding := "" }

/-- An identity-encoded plain-text response. -/
def egPlainResp : Response := { contentType := "text/plain" }

/-- An identity-encoded HTML response. -/
def egHtmlResp : Response := { contentType := "text/html", body := [60, 112, 62] }

/-- A response declaring gzip with a plain-text content type and an empty
(hence invalid gzip) body. -/
def egGzPlainResp : Response := { contentEncoding := "gzip", contentType := "text/plain" }

/-- A gzip response whose member header is well formed but whose deflate
stream is corrupt (reserved block type). -/
def egGzCorruptResp : Response :=
  { contentEncoding := "gzip", contentType := "text/html",
    body := 0x1f :: 0x8b :: 8 :: 0 :: 0 :: 0 :: 0 :: 0 :: 0 :: 255 :: [7] }

/-- A gzip response carrying a valid compression of the bytes `[104, 105]`. -/
def egGzResp : Response :=
  { contentEncoding := "gzip", contentType := "text/html",
    body := Gzip.gzipCompress [104, 105] }

/-- Is a result the `DecodeError` classification (the
`"failed to create gzip reader"` return)? -/
def isDecodeErrorResult : Except FErr Article → Bool
  | .error (.decodeError _) => true
  | _ => false

/-- Is a result the `UnsupportedContentType` classification (the
`"URL is not a HTML document"` return)? -/
def isUnsupportedResult : Except FErr Article → Bool
  | .error .unsupportedContentType => true
  | _ => false

end GoReadability

namespace Gzip

open GoReadability

/-! ## Shared lemmas about the gzip model -/

/-- One crc32 shift-register round stays within 32 bits. -/
theorem crcRound_lt {c : Nat} (h : c < 2 ^ 32) : crcRound c < 2 ^ 32 := by
  unfold crcRound
  split
  · exact Nat.xor_lt_two_pow (by omega) (by norm_num)
  · omega

/-- crc32 table entries are 32-bit values. -/
theorem crcTable_lt {n : Nat} (h : n < 2 ^ 32) : crcTable n < 2 ^ 32 := by
  unfold crcTable
  exact crcRound_lt (crcRound_lt (crcRound_lt (crcRound_lt
    (crcRound_lt (crcRound_lt (crcRound_lt (crcRound_lt h)))))))

/-- `crc32Update` stays within 32 bits. -/
theorem crc32Update_lt (crc : Nat) (p : Bytes) (h : crc < 2 ^ 32) :
    crc32Update crc p < 2 ^ 32 := by
  unfold crc32Update
  have hf : ∀ (l : Bytes) (c : Nat), c < 2 ^ 32 →
      l.foldl (fun c b => (c / 256) ^^^ crcTable ((c ^^^ b) % 256)) c < 2 ^ 32 := by
    intro l
    induction l with
    | nil => intro c hc; simpa using hc
    | cons b t ih =>
      intro c hc
      simp only [List.foldl_cons]
      exact ih _ (Nat.xor_lt_two_pow (by omega)
        (crcTable_lt (lt_trans (Nat.mod_lt _ (by norm_num)) (by norm_num))))
  exact Nat.xor_lt_two_pow (hf _ _ (Nat.xor_lt_two_pow h (by norm_num))) (by norm_num)

/-- `crcIEEE` produces a 32-bit value. -/
theorem crcIEEE_lt (p : Bytes) : crcIEEE p < 2 ^ 32 :=
  crc32Update_lt 0 p (by norm_num)

/-- Reading back a little-endian 32-bit encoding recovers the value mod 2³². -/
theorem leUint32_le32 (n : Nat) : leUint32 (le32 n) = n % 4294967296 := by
  simp only [le32, leUint32]
  omega

/-- `le32` always produces four bytes. -/
theorem le32_length (n : Nat) : (le32 n).length = 4 := by simp [le32]

/-- Wrap-time header validation succeeds on `gzipCompress` output and leaves
the stored block and the trailer. -/
theorem readHeader_gzipCompress (B : Bytes) :
    readHeader (gzipCompress B) =
      .ok (storedBlock B ++ (le32 (crcIEEE B) ++ le32 B.length)) := by
  simp [gzipCompress, readHeader, readHeaderExtra, readHeaderName, readHeaderComment,
    readHeaderCrc]

/-- The stored-block decompressor inverts `storedBlock` and leaves the
trailing bytes untouched. -/
theorem inflateStored_storedBlock (B T : Bytes) (h : B.length ≤ 65535) (fuel : Nat) :
    inflateStored (fuel + 1) (storedBlock B ++ T) = .ok (B, T) := by
  have h1 : leUint16 (B.length % 256) (B.length / 256 % 256) = B.length := by
    simp only [leUint16]; omega
  simp only [storedBlock, List.cons_append, inflateStored, h1]
  norm_num

/-- `stdInflate` inverts `storedBlock`. -/
theorem stdInflate_storedBlock (B T : Bytes) (h : B.length ≤ 65535) :
    stdInflate (storedBlock B ++ T) = .ok (B, T) :=
  inflateStored_storedBlock B T h _

/-- The trailer written by `gzipCompress` passes the crc/size check and
exhausts the stream. -/
theorem checkTrailer_compress (B : Bytes) :
    checkTrailer B (le32 (crcIEEE B) ++ le32 B.length) = .ok [] := by
  have hc := crcIEEE_lt B
  have hlen : (le32 (crcIEEE B) ++ le32 B.length).length = 8 := by simp [le32]
  have htake : (le32 (crcIEEE B) ++ le32 B.length).take 4 = le32 (crcIEEE B) := by
    rw [show (4 : Nat) = (le32 (crcIEEE B)).length from (le32_length _).symm, List.take_left]
  have hdrop : (le32 (crcIEEE B) ++ le32 B.length).drop 4 = le32 B.length := by
    rw [show (4 : Nat) = (le32 (crcIEEE B)).length from (le32_length _).symm, List.drop_left]
  unfold checkTrailer
  rw [if_neg (by omega), htake, hdrop]
  rw [show (le32 B.length).take 4 = le32 B.length from by
    rw [show (4 : Nat) = (le32 B.length).length from (le32_length _).symm, List.take_length]]
  rw [leUint32_le32, leUint32_le32, Nat.mod_eq_of_lt (by omega)]
  rw [if_pos (by simp)]
  rw [show (le32 (crcIEEE B) ++ le32 B.length).drop 8 = [] from by simp [le32]]

/-- The read phase recovers exactly the compressed bytes from a
`gzipCompress` member, for any fuel. -/
theorem gzipAfterHeader_compress (B : Bytes) (h : B.length ≤ 65535) (fuel : Nat) :
    gzipAfterHeader stdInflate fuel (storedBlock B ++ (le32 (crcIEEE B) ++ le32 B.length)) =
      .ok B := by
  simp only [gzipAfterHeader, stdInflate_storedBlock B _ h, checkTrailer_compress B]

end Gzip

namespace GoReadability

open NUrl Gzip

/-! ## Shared lemmas about the URL model -/

/-- ASCII lower-casing preserves emptiness of a string. -/
theorem lowerString_eq_empty_iff (s : String) : lowerString s = "" ↔ s = "" := by
  unfold lowerString
  cases s with
  | mk l =>
    cases l with
    | nil => simp [String.toList]
    | cons c cs => simp [String.toList, String.ext_iff]

end GoReadability

open GoReadability NUrl Gzip

/-! ## Claim theorems -/

/-- C1: for every input string the URL validator rejects, `FromURL` returns
the `InvalidURL` classification with an empty event trace — no request is
issued, nothing is closed — and the whole outcome is independent of the
transport, so no network activity can have occurred. -/
theorem c1_invalid_url_before_network
    (inflate : Bytes → Except String (Bytes × Bytes)) (p : ParseFn) (t : Transport)
    (s : String) (tmo : Nat) (h : (parseRequestURI s).isOk = false) :
    (fromURL inflate p t s tmo).events = [] ∧
    (∃ m, (fromURL inflate p t s tmo).result = .error (.invalidURL m)) ∧
    (∀ t' : Transport, fromURL inflate p t s tmo = fromURL inflate p t' s tmo) := by
  cases hp : parseRequestURI s with
  | error e =>
    refine ⟨?_, ⟨"failed to parse URL: " ++ e, ?_⟩, ?_⟩ <;> simp [fromURL, hp]
  | ok u => rw [hp] at h; simp [Except.isOk, Except.toBool] at h

/-- C1 witness: the empty string is rejected and produces no events. -/
theorem c1_invalid_url_before_network_witness :
    (parseRequestURI "").isOk = false ∧
    (fromURL stdInflate propagatingParse failTransport "" 0).events = [] :=
  ⟨by decide,
   (c1_invalid_url_before_network stdInflate propagatingParse failTransport "" 0 (by decide)).1⟩

/-- C2 counterexample: `"mailto:x"` parses successfully although it has no
authority (empty host), and `FromURL` on it proceeds to the network stage
(the transport is invoked and its failure is surfaced as the fetch
classification) instead of failing with `InvalidURL`. -/
theorem c2_counterexample :
    parseRequestURI "mailto:x" = .ok { scheme := "mailto", opaq := "x" } ∧
    (fromURL stdInflate propagatingParse failTransport "mailto:x" 1).result =
      .error (.fetchError "failed to fetch the page: boom") :=
  ⟨rfl, rfl⟩

/-- C2 amended: the validator accepts exactly Go's request-URI shapes — an
authority is never required.  Every accepted string is `"*"`, or has a
non-empty scheme (opaque and authority forms alike), or is an absolute
reference whose pre-query part begins with `/`; and every string with no
scheme whose pre-query part does not begin with `/` (other than `"*"`) is
rejected, which `FromURL` surfaces as `InvalidURL`. -/
theorem c2_request_uri_shapes :
    (∀ s : String, s ≠ "*" → getScheme s = .ok ("", s) →
      startsWithSlash (stripQuery s.toList).1 = false →
      (parseRequestURI s).isOk = false) ∧
    (∀ (s : String) (u : URL), parseRequestURI s = .ok u →
      s = "*" ∨ ∃ sch rest, getScheme s = .ok (sch, rest) ∧
        (sch ≠ "" ∨ startsWithSlash (stripQuery rest.toList).1 = true)) := by
  constructor
  · intro s hstar hsch hslash
    have hslash' : startsWithSlash (stripQuery s.data).1 = false := by
      simpa [String.toList] using hslash
    have h3 : (s == "*") = false := by simpa using hstar
    have hemp : lowerString "" = "" := rfl
    unfold parseRequestURI parse
    rw [hsch]
    by_cases h1 : stringContainsCTLByte s = true
    · simp [h1, Except.isOk, Except.toBool]
    · simp only [Bool.not_eq_true] at h1
      by_cases h2 : (s == "") = true
      · simp [h1, h2, Except.isOk, Except.toBool]
      · simp only [Bool.not_eq_true] at h2
        simp [h1, h2, h3, hemp, hslash', String.toList, Except.isOk, Except.toBool]
  · intro s u hu
    by_cases hstar : s = "*"
    · exact Or.inl hstar
    right
    have h3 : (s == "*") = false := by simpa using hstar
    unfold parseRequestURI parse at hu
    by_cases h1 : stringContainsCTLByte s = true
    · simp [h1] at hu
    simp only [Bool.not_eq_true] at h1
    by_cases h2 : (s == "") = true
    · simp [h1, h2] at hu
    simp only [Bool.not_eq_true] at h2
    simp only [h1, h2, h3, Bool.false_and, Bool.and_true, if_false,
      Bool.false_eq_true, if_true] at hu
    cases hg : getScheme s with
    | error e => rw [hg] at hu; simp at hu
    | ok sr =>
      obtain ⟨sch, rest⟩ := sr
      rw [hg] at hu
      simp only at hu
      refine ⟨sch, rest, rfl, ?_⟩
      by_cases hsl : startsWithSlash (stripQuery rest.toList).1 = true
      · exact Or.inr hsl
      · left
        intro hemp
        subst hemp
        simp only [Bool.not_eq_true, String.toList] at hsl
        rw [show lowerString "" = "" from rfl] at hu
        simp [hsl] at hu

/-- C2 amended witness: `"foo.html"` (no scheme, not rooted) is rejected,
and `"mailto:y"` is accepted with a scheme and no authority. -/
theorem c2_request_uri_shapes_witness :
    (parseRequestURI "foo.html").isOk = false ∧
    ("mailto:y" = "*" ∨ ∃ sch rest, getScheme "mailto:y" = .ok (sch, rest) ∧
      (sch ≠ "" ∨ startsWithSlash (stripQuery rest.toList).1 = true)) :=
  ⟨c2_request_uri_shapes.1 "foo.html" (by decide) rfl (by decide),
   c2_request_uri_shapes.2 "mailto:y" { scheme := "mailto", opaq := "y" } rfl⟩

/-- C3 counterexample: a response declaring `Content-Encoding: gzip` with
content type `text/plain` and a body that is not valid gzip fails with the
`DecodeError` classification, not `UnsupportedContentType` — the gzip wrap
runs before the media-type gate. -/
theorem c3_counterexample :
    (fromURL stdInflate propagatingParse (constTransport egGzPlainResp)
      "http://example.com/" 5).result =
      .error (.decodeError "failed to create gzip reader: EOF") ∧
    isUnsupportedResult
      (fromURL stdInflate propagatingParse (constTransport egGzPlainResp)
        "http://example.com/" 5).result = false :=
  ⟨rfl, rfl⟩

/-- C3 amended: for every response whose declared content type does not
contain the HTML token, acquisition fails with `UnsupportedContentType`
regardless of body contents, provided the encoding-normalization step did
not itself fail first (the declared encoding is not gzip, or the gzip
header is valid); when the declared encoding is gzip and the body's header
is invalid, acquisition fails with `DecodeError` instead. -/
theorem c3_unsupported_content_type
    (inflate : Bytes → Except String (Bytes × Bytes)) (p : ParseFn) (t : Transport)
    (s : String) (tmo : Nat) (u : URL) (req0 : Request) (resp : Response)
    (hu : parseRequestURI s = .ok u)
    (hr : newRequest "GET" s = .ok req0)
    (ht : t tmo { req0 with acceptEncoding := "gzip" } = .ok resp)
    (hct : stringsContains resp.contentType "text/html" = false)
    (henc : resp.contentEncoding ≠ "gzip" ∨ (readHeader resp.body).isOk = true) :
    (fromURL inflate p t s tmo).result = .error .unsupportedContentType := by
  by_cases he : resp.contentEncoding == "gzip"
  · rcases henc with h | h
    · exact absurd (by simpa using he) h
    · obtain ⟨rest, hrh⟩ : ∃ r, readHeader resp.body = .ok r := by
        cases hr2 : readHeader resp.body with
        | ok r => exact ⟨r, rfl⟩
        | error e => rw [hr2] at h; simp [Except.isOk, Except.toBool] at h
      simp [fromURL, hu, hr, ht, he, hrh, hct]
  · simp only [Bool.not_eq_true] at he
    simp [fromURL, hu, hr, ht, he, hct]

/-- C3 amended witness: an identity-encoded `text/plain` response fails
with `UnsupportedContentType`. -/
theorem c3_unsupported_content_type_witness :
    (fromURL stdInflate propagatingParse (constTransport egPlainResp)
      "http://example.com/" 5).result = .error .unsupportedContentType :=
  c3_unsupported_content_type stdInflate propagatingParse (constTransport egPlainResp)
    "http://example.com/" 5 egURL egReq0 egPlainResp rfl rfl rfl (by decide)
    (Or.inl (by decide))

/-- C4: for a gzip-declared response whose payload is a valid gzip
compression of `B` (here produced by the stored-block compressor), the
stream handed to the extraction engine yields exactly `B`; and for every
response taking the identity path, the stream handed over is exactly the
raw body. -/
theorem c4_delivered_bytes :
    (∀ (B : Bytes) (p : ParseFn) (t : Transport) (s : String) (tmo : Nat)
      (u : URL) (req0 : Request) (resp : Response),
      B.length ≤ 65535 →
      parseRequestURI s = .ok u →
      newRequest "GET" s = .ok req0 →
      t tmo { req0 with acceptEncoding := "gzip" } = .ok resp →
      resp.contentEncoding = "gzip" →
      resp.body = gzipCompress B →
      stringsContains resp.contentType "text/html" = true →
      (fromURL stdInflate p t s tmo).delivered = some (.ok B, u)) ∧
    (∀ (inflate : Bytes → Except String (Bytes × Bytes)) (p : ParseFn) (t : Transport)
      (s : String) (tmo : Nat) (u : URL) (req0 : Request) (resp : Response),
      parseRequestURI s = .ok u →
      newRequest "GET" s = .ok req0 →
      t tmo { req0 with acceptEncoding := "gzip" } = .ok resp →
      resp.contentEncoding ≠ "gzip" →
      stringsContains resp.contentType "text/html" = true →
      (fromURL inflate p t s tmo).delivered = some (.ok resp.body, u)) := by
  constructor
  · intro B p t s tmo u req0 resp hB hu hr ht he hb hct
    simp [fromURL, hu, hr, ht, he, hb, readHeader_gzipCompress, hct,
      gzipAfterHeader_compress B hB]
  · intro inflate p t s tmo u req0 resp hu hr ht he hct
    simp [fromURL, hu, hr, ht, he, hct]

/-- C4 witness: the compression of `[104, 105]` is delivered as exactly
those bytes, and an identity-encoded body is delivered unchanged. -/
theorem c4_delivered_bytes_witness :
    (fromURL stdInflate propagatingParse (constTransport egGzResp)
      "http://example.com/" 5).delivered = some (.ok [104, 105], egURL) ∧
    (fromURL stdInflate propagatingParse (constTransport egHtmlResp)
      "http://example.com/" 5).delivered = some (.ok egHtmlResp.body, egURL) :=
  ⟨c4_delivered_bytes.1 [104, 105] propagatingParse (constTransport egGzResp)
      "http://example.com/" 5 egURL egReq0 egGzResp (by decide) rfl rfl rfl rfl rfl
      (by decide),
   c4_delivered_bytes.2 stdInflate propagatingParse (constTransport egHtmlResp)
      "http://example.com/" 5 egURL egReq0 egHtmlResp rfl rfl rfl (by decide) (by decide)⟩

/-- C5: the normalizer dispatches on the exact value of the declared
content-encoding header: any value other than the gzip token (absent
included) passes the body through unchanged and can never produce the
`DecodeError` classification, while exactly `"gzip"` routes the body
through header validation and the streaming decompression stage. -/
theorem c5_encoding_dispatch :
    ∀ (inflate : Bytes → Except String (Bytes × Bytes)) (p : ParseFn) (t : Transport)
      (s : String) (tmo : Nat) (u : URL) (req0 : Request) (resp : Response),
      parseRequestURI s = .ok u →
      newRequest "GET" s = .ok req0 →
      t tmo { req0 with acceptEncoding := "gzip" } = .ok resp →
      ((resp.contentEncoding ≠ "gzip" →
        (∀ m, (fromURL inflate p t s tmo).result ≠ .error (.decodeError m)) ∧
        ∀ st uu, (fromURL inflate p t s tmo).delivered = some (st, uu) →
          st = .ok resp.body) ∧
       (resp.contentEncoding = "gzip" →
        ∀ st uu, (fromURL inflate p t s tmo).delivered = some (st, uu) →
          ∃ rest, readHeader resp.body = .ok rest ∧
            st = gzipAfterHeader inflate resp.body.length rest)) := by
  intro inflate p t s tmo u req0 resp hu hr ht
  constructor
  · intro he
    constructor
    · intro m
      by_cases hct : stringsContains resp.contentType "text/html" = true
      · cases hp2 : p (.ok resp.body) u with
        | ok a => simp [fromURL, hu, hr, ht, he, hct, hp2]
        | error e => simp [fromURL, hu, hr, ht, he, hct, hp2]
      · simp only [Bool.not_eq_true] at hct
        simp [fromURL, hu, hr, ht, he, hct]
    · intro st uu hd
      by_cases hct : stringsContains resp.contentType "text/html" = true
      · simp [fromURL, hu, hr, ht, he, hct] at hd
        exact hd.1.symm
      · simp only [Bool.not_eq_true] at hct
        simp [fromURL, hu, hr, ht, he, hct] at hd
  · intro he st uu hd
    cases hrh : readHeader resp.body with
    | error e => simp [fromURL, hu, hr, ht, he, hrh] at hd
    | ok rest =>
      by_cases hct : stringsContains resp.contentType "text/html" = true
      · refine ⟨rest, rfl, ?_⟩
        simp [fromURL, hu, hr, ht, he, hrh, hct] at hd
        exact hd.1.symm
      · simp only [Bool.not_eq_true] at hct
        simp [fromURL, hu, hr, ht, he, hrh, hct] at hd

/-- C5 witness: on the gzip response carrying the compression of
`[104, 105]`, the stream delivered to extraction is the decompression stage
applied after header validation. -/
theorem c5_encoding_dispatch_witness :
    ∃ rest, readHeader egGzResp.body = .ok rest ∧
      (Except.ok [104, 105] : Except String Bytes) =
        gzipAfterHeader stdInflate egGzResp.body.length rest :=
  (c5_encoding_dispatch stdInflate propagatingParse (constTransport egGzResp)
      "http://example.com/" 5 egURL egReq0 egGzResp rfl rfl rfl).2 rfl
    (.ok [104, 105]) egURL rfl

/-- C6 counterexample: a gzip-declared payload with a well-formed member
header but a corrupt deflate stream is accepted at wrap time; the failure
surfaces while the extraction stage reads the stream and is returned as
that stage's error, not as the `DecodeError` classification. -/
theorem c6_counterexample :
    (fromURL stdInflate propagatingParse (constTransport egGzCorruptResp)
      "http://example.com/" 5).result = .error (.parseError "flate: corrupt input") ∧
    isDecodeErrorResult
      (fromURL stdInflate propagatingParse (constTransport egGzCorruptResp)
        "http://example.com/" 5).result = false :=
  ⟨rfl, rfl⟩

/-- C6 amended: for every gzip-declared response whose payload has a
malformed gzip member header, acquisition fails with `DecodeError` at wrap
time; corruption past a well-formed header is not detected at wrap time and
surfaces through the extraction stage's read instead. -/
theorem c6_decode_error_at_wrap
    (inflate : Bytes → Except String (Bytes × Bytes)) (p : ParseFn) (t : Transport)
    (s : String) (tmo : Nat) (u : URL) (req0 : Request) (resp : Response) (e : String)
    (hu : parseRequestURI s = .ok u)
    (hr : newRequest "GET" s = .ok req0)
    (ht : t tmo { req0 with acceptEncoding := "gzip" } = .ok resp)
    (he : resp.contentEncoding = "gzip")
    (hrh : readHeader resp.body = .error e) :
    (fromURL inflate p t s tmo).result =
      .error (.decodeError ("failed to create gzip reader: " ++ e)) := by
  simp [fromURL, hu, hr, ht, he, hrh]

/-- C6 amended witness: an empty gzip-declared body fails header validation
and yields the `DecodeError` classification. -/
theorem c6_decode_error_at_wrap_witness :
    (fromURL stdInflate propagatingParse (constTransport egGzPlainResp)
      "http://example.com/" 7).result =
      .error (.decodeError ("failed to create gzip reader: " ++ "EOF")) :=
  c6_decode_error_at_wrap stdInflate propagatingParse (constTransport egGzPlainResp)
    "http://example.com/" 7 egURL egReq0 egGzPlainResp "EOF" rfl rfl rfl rfl rfl

/-- C7: the media-type gate is substring containment of the HTML token in
the declared content type — `"text/html; charset=utf-8"` passes, the
absent header (empty string) fails — and, whenever the response reaches
the gate (the encoding step did not fail first), the run ends in
`UnsupportedContentType` exactly when containment fails. -/
theorem c7_media_type_gate :
    stringsContains "text/html; charset=utf-8" "text/html" = true ∧
    stringsContains "" "text/html" = false ∧
    ∀ (inflate : Bytes → Except String (Bytes × Bytes)) (p : ParseFn) (t : Transport)
      (s : String) (tmo : Nat) (u : URL) (req0 : Request) (resp : Response),
      parseRequestURI s = .ok u →
      newRequest "GET" s = .ok req0 →
      t tmo { req0 with acceptEncoding := "gzip" } = .ok resp →
      (resp.contentEncoding ≠ "gzip" ∨ (readHeader resp.body).isOk = true) →
      ((fromURL inflate p t s tmo).result = .error .unsupportedContentType ↔
        stringsContains resp.contentType "text/html" = false) := by
  refine ⟨by decide, by decide, ?_⟩
  intro inflate p t s tmo u req0 resp hu hr ht henc
  constructor
  · intro hres
    by_cases hct : stringsContains resp.contentType "text/html" = true
    · exfalso
      by_cases he : resp.contentEncoding == "gzip"
      · rcases henc with h | h
        · exact h (by simpa using he)
        · obtain ⟨rest, hrh⟩ : ∃ r, readHeader resp.body = .ok r := by
            cases hr2 : readHeader resp.body with
            | ok r => exact ⟨r, rfl⟩
            | error e2 => rw [hr2] at h; simp [Except.isOk, Except.toBool] at h
          cases hp2 : p (gzipAfterHeader inflate resp.body.length rest) u with
          | ok a => simp [fromURL, hu, hr, ht, he, hrh, hct, hp2] at hres
          | error e2 => simp [fromURL, hu, hr, ht, he, hrh, hct, hp2] at hres
      · simp only [Bool.not_eq_true] at he
        cases hp2 : p (.ok resp.body) u with
        | ok a => simp [fromURL, hu, hr, ht, he, hct, hp2] at hres
        | error e2 => simp [fromURL, hu, hr, ht, he, hct, hp2] at hres
    · simpa using hct
  · intro hct
    by_cases he : resp.contentEncoding == "gzip"
    · rcases henc with h | h
      · exact absurd (by simpa using he) h
      · obtain ⟨rest, hrh⟩ : ∃ r, readHeader resp.body = .ok r := by
          cases hr2 : readHeader resp.body with
          | ok r => exact ⟨r, rfl⟩
          | error e2 => rw [hr2] at h; simp [Except.isOk, Except.toBool] at h
        simp [fromURL, hu, hr, ht, he, hrh, hct]
    · simp only [Bool.not_eq_true] at he
      simp [fromURL, hu, hr, ht, he, hct]

/-- C7 witness: for an identity-encoded `text/plain` response the run ends
in `UnsupportedContentType` if and only if containment fails (and it does
fail). -/
theorem c7_media_type_gate_witness :
    (fromURL stdInflate propagatingParse (constTransport egPlainResp)
      "http://example.com/" 9).result = .error .unsupportedContentType ↔
      stringsContains egPlainResp.contentType "text/html" = false :=
  (c7_media_type_gate.2.2 stdInflate propagatingParse (constTransport egPlainResp)
    "http://example.com/" 9 egURL egReq0 egPlainResp rfl rfl rfl (Or.inl (by decide)))

/-- C8: the transport stage never filters on the status code — two runs
whose responses differ only in status code are indistinguishable in result,
events, and delivered stream — and the `FetchError` classification arises
exactly from a transport-level failure of the single issued request. -/
theorem c8_no_status_filtering :
    (∀ (inflate : Bytes → Except String (Bytes × Bytes)) (p : ParseFn) (s : String)
      (tmo : Nat) (resp : Response) (c c' : Nat),
      fromURL inflate p (constTransport { resp with statusCode := c }) s tmo =
        fromURL inflate p (constTransport { resp with statusCode := c' }) s tmo) ∧
    (∀ (inflate : Bytes → Except String (Bytes × Bytes)) (p : ParseFn) (t : Transport)
      (s : String) (tmo : Nat) (m : String),
      (fromURL inflate p t s tmo).result = .error (.fetchError m) →
      ∃ req0 e, newRequest "GET" s = .ok req0 ∧
        t tmo { req0 with acceptEncoding := "gzip" } = .error e ∧
        m = "failed to fetch the page: " ++ e) := by
  constructor
  · intro inflate p s tmo resp c c'
    rfl
  · intro inflate p t s tmo m hres
    cases hu : parseRequestURI s with
    | error e => simp [fromURL, hu] at hres
    | ok u =>
      cases hr : newRequest "GET" s with
      | error e => simp [fromURL, hu, hr] at hres
      | ok req0 =>
        cases ht : t tmo { req0 with acceptEncoding := "gzip" } with
        | error e =>
          refine ⟨req0, e, rfl, ht, ?_⟩
          simp [fromURL, hu, hr, ht] at hres
          exact hres.symm
        | ok resp =>
          exfalso
          by_cases he : resp.contentEncoding == "gzip"
          · cases hrh : readHeader resp.body with
            | error e2 => simp [fromURL, hu, hr, ht, he, hrh] at hres
            | ok rest =>
              by_cases hct : stringsContains resp.contentType "text/html" = true
              · cases hp2 : p (gzipAfterHeader inflate resp.body.length rest) u with
                | ok a => simp [fromURL, hu, hr, ht, he, hrh, hct, hp2] at hres
                | error e2 => simp [fromURL, hu, hr, ht, he, hrh, hct, hp2] at hres
              · simp only [Bool.not_eq_true] at hct
                simp [fromURL, hu, hr, ht, he, hrh, hct] at hres
          · simp only [Bool.not_eq_true] at he
            by_cases hct : stringsContains resp.contentType "text/html" = true
            · cases hp2 : p (.ok resp.body) u with
              | ok a => simp [fromURL, hu, hr, ht, he, hct, hp2] at hres
              | error e2 => simp [fromURL, hu, hr, ht, he, hct, hp2] at hres
            · simp only [Bool.not_eq_true] at hct
              simp [fromURL, hu, hr, ht, he, hct] at hres

/-- C8 witness: a connection-level failure surfaces as the fetch
classification built from the transport's error. -/
theorem c8_no_status_filtering_witness :
    ∃ req0 e, newRequest "GET" "http://example.com/" = .ok req0 ∧
      failTransport 5 { req0 with acceptEncoding := "gzip" } = .error e ∧
      "failed to fetch the page: boom" = "failed to fetch the page: " ++ e :=
  c8_no_status_filtering.2 stdInflate propagatingParse failTransport
    "http://example.com/" 5 "failed to fetch the page: boom" rfl

/-- C9: on every exit path where a response was obtained, the trace ends by
closing the body exactly once; and the gzip stage is closed exactly once,
immediately before the body (reverse order of wrapping), precisely when it
was created (gzip-declared encoding with a successful wrap) — otherwise no
gzip close occurs at all, so there is neither a leak nor a double-close. -/
theorem c9_close_discipline
    (inflate : Bytes → Except String (Bytes × Bytes)) (p : ParseFn) (t : Transport)
    (s : String) (tmo : Nat) (u : URL) (req0 : Request) (resp : Response)
    (hu : parseRequestURI s = .ok u)
    (hr : newRequest "GET" s = .ok req0)
    (ht : t tmo { req0 with acceptEncoding := "gzip" } = .ok resp) :
    ((fromURL inflate p t s tmo).events.count Event.closeBody = 1) ∧
    (resp.contentEncoding = "gzip" ∧ (readHeader resp.body).isOk = true →
      (fromURL inflate p t s tmo).events =
        [.request { req0 with acceptEncoding := "gzip" }, .closeGzip, .closeBody] ∧
      (fromURL inflate p t s tmo).events.count Event.closeGzip = 1) ∧
    (¬(resp.contentEncoding = "gzip" ∧ (readHeader resp.body).isOk = true) →
      (fromURL inflate p t s tmo).events =
        [.request { req0 with acceptEncoding := "gzip" }, .closeBody] ∧
      (fromURL inflate p t s tmo).events.count Event.closeGzip = 0) := by
  by_cases he : resp.contentEncoding == "gzip"
  · cases hrh : readHeader resp.body with
    | error e2 =>
      have hev : (fromURL inflate p t s tmo).events =
          [.request { req0 with acceptEncoding := "gzip" }, .closeBody] := by
        simp [fromURL, hu, hr, ht, he, hrh]
      refine ⟨by rw [hev]; rfl, ?_, ?_⟩
      · rintro ⟨-, hok⟩
        simp [Except.isOk, Except.toBool] at hok
      · intro _
        exact ⟨hev, by rw [hev]; rfl⟩
    | ok rest =>
      have hev : (fromURL inflate p t s tmo).events =
          [.request { req0 with acceptEncoding := "gzip" }, .closeGzip, .closeBody] := by
        by_cases hct : stringsContains resp.contentType "text/html" = true
        · simp [fromURL, hu, hr, ht, he, hrh, hct]
        · simp only [Bool.not_eq_true] at hct
          simp [fromURL, hu, hr, ht, he, hrh, hct]
      refine ⟨by rw [hev]; rfl, ?_, ?_⟩
      · intro _
        exact ⟨hev, by rw [hev]; rfl⟩
      · intro hn
        exact absurd ⟨by simpa using he, by simp [Except.isOk, Except.toBool]⟩ hn
  · have hne : resp.contentEncoding ≠ "gzip" := by simpa using he
    simp only [Bool.not_eq_true] at he
    have hev : (fromURL inflate p t s tmo).events =
        [.request { req0 with acceptEncoding := "gzip" }, .closeBody] := by
      by_cases hct : stringsContains resp.contentType "text/html" = true
      · simp [fromURL, hu, hr, ht, he, hct]
      · simp only [Bool.not_eq_true] at hct
        simp [fromURL, hu, hr, ht, he, hct]
    refine ⟨by rw [hev]; rfl, ?_, ?_⟩
    · rintro ⟨heq, -⟩
      exact absurd heq hne
    · intro _
      exact ⟨hev, by rw [hev]; rfl⟩

/-- C9 witness: on a gzip-declared response with a valid payload the run
closes the body exactly once and the created gzip stage exactly once,
immediately before the body. -/
theorem c9_close_discipline_witness :
    ((fromURL stdInflate propagatingParse (constTransport egGzResp)
        "http://example.com/" 5).events.count Event.closeBody = 1) ∧
    (egGzResp.contentEncoding = "gzip" ∧ (readHeader egGzResp.body).isOk = true →
      (fromURL stdInflate propagatingParse (constTransport egGzResp)
        "http://example.com/" 5).events =
        [.request { egReq0 with acceptEncoding := "gzip" }, .closeGzip, .closeBody] ∧
      (fromURL stdInflate propagatingParse (constTransport egGzResp)
        "http://example.com/" 5).events.count Event.closeGzip = 1) ∧
    (¬(egGzResp.contentEncoding = "gzip" ∧ (readHeader egGzResp.body).isOk = true) →
      (fromURL stdInflate propagatingParse (constTransport egGzResp)
        "http://example.com/" 5).events =
        [.request { egReq0 with acceptEncoding := "gzip" }, .closeBody] ∧
      (fromURL stdInflate propagatingParse (constTransport egGzResp)
        "http://example.com/" 5).events.count Event.closeGzip = 0) :=
  c9_close_discipline stdInflate propagatingParse (constTransport egGzResp)
    "http://example.com/" 5 egURL egReq0 egGzResp rfl rfl rfl

/-- C10: whatever is handed to the extraction engine, its URL component is
the one parsed from the caller's input string — never the response's final
URL: the run is completely insensitive to the `finalURL` field (redirect
target) of the response. -/
theorem c10_parse_uses_input_url :
    (∀ (inflate : Bytes → Except String (Bytes × Bytes)) (p : ParseFn) (t : Transport)
      (s : String) (tmo : Nat) (st : Except String Bytes) (uu : URL),
      (fromURL inflate p t s tmo).delivered = some (st, uu) →
      parseRequestURI s = .ok uu) ∧
    (∀ (inflate : Bytes → Except String (Bytes × Bytes)) (p : ParseFn) (s : String)
      (tmo : Nat) (resp : Response) (f f' : String),
      fromURL inflate p (constTransport { resp with finalURL := f }) s tmo =
        fromURL inflate p (constTransport { resp with finalURL := f' }) s tmo) := by
  constructor
  · intro inflate p t s tmo st uu hd
    cases hu : parseRequestURI s with
    | error e => simp [fromURL, hu] at hd
    | ok u =>
      cases hr : newRequest "GET" s with
      | error e => simp [fromURL, hu, hr] at hd
      | ok req0 =>
        cases ht : t tmo { req0 with acceptEncoding := "gzip" } with
        | error e => simp [fromURL, hu, hr, ht] at hd
        | ok resp =>
          by_cases he : resp.contentEncoding == "gzip"
          · cases hrh : readHeader resp.body with
            | error e2 => simp [fromURL, hu, hr, ht, he, hrh] at hd
            | ok rest =>
              by_cases hct : stringsContains resp.contentType "text/html" = true
              · simp [fromURL, hu, hr, ht, he, hrh, hct] at hd
                rw [← hd.2]
              · simp only [Bool.not_eq_true] at hct
                simp [fromURL, hu, hr, ht, he, hrh, hct] at hd
          · simp only [Bool.not_eq_true] at he
            by_cases hct : stringsContains resp.contentType "text/html" = true
            · simp [fromURL, hu, hr, ht, he, hct] at hd
              rw [← hd.2]
            · simp only [Bool.not_eq_true] at hct
              simp [fromURL, hu, hr, ht, he, hct] at hd
  · intro inflate p s tmo resp f f'
    rfl

/-- C10 witness: on a successful identity-encoded run over
`"http://example.com/"`, the URL delivered to extraction is the parse of
that very input string. -/
theorem c10_parse_uses_input_url_witness :
    parseRequestURI "http://example.com/" = .ok egURL :=
  c10_parse_uses_input_url.1 stdInflate propagatingParse (constTransport egHtmlResp)
    "http://example.com/" 5 (.ok egHtmlResp.body) egURL rfl
